import Mathlib

/-!
Shallow embedding of `src/web.ts` (class `BarcodeScannerWeb`) from the
Lokavaluto/barcode-scanner repository, with theorems settling the frozen
claims about its scan lifecycle: cooperative cancellation through the
`_video_nonce` generation counter, stream and DOM-surface ownership, the
decode-engine callback filtering, target-format translation, and torch
control.

Modelling conventions:
* The browser event loop is single threaded; an async run is an
  interleaving of atomic segments separated by `await` suspension points.
  Each resumption of `_startVideo` / the `_getVideoElement` IIFE is one
  atomic segment, and the bodies of `stopScan`, `pauseScanning`,
  `enableTorch`, `disableTorch`, `toggleTorch` (which contain no `await`)
  are single atomic segments.  A schedule is a list of such atomic actions.
* Media streams are numbered in order of acquisition; `streams` records,
  per stream, whether some of its tracks are still live (`true`) or all of
  its tracks were stopped (`false`).  `getUserMedia` is assumed to succeed
  with a fresh live stream (camera present, permission granted), which is
  the environment of every claim considered here.
* `doc` counts the video surfaces currently installed in the document
  (each successful acquisition appends exactly one `div`-wrapped `video`
  element with id `video`; `stopVideo` removes it with its parent).
* A thrown exception is modelled by the rejection value recorded in the
  `_videoPromise` field (`vp`), exactly as the rejected IIFE promise
  records it in the code.
-/

namespace BarcodeScanner

/-- Shape of the record resolved by a successful scan
(`web.ts` lines 220-224 and `definitions.ts` `ScanResult`). -/
structure ScanResult where
  hasContent : Bool
  content : String
  format : String
  deriving DecidableEq, Repr

/-- The exceptions the embedded acquisition code can raise:
`scanCanceled` is the `ScanCanceled` class (`web.ts` 18-23, thrown at
lines 248, 282, 290); `cameraAlreadyStarted` is the throw at line 251;
`playError` stands for a rejection of `video.play()` at line 286
(for example Safari's `NotAllowedError`, see the comment at lines 265-267). -/
inductive Err where
  | scanCanceled
  | cameraAlreadyStarted
  | playError
  deriving DecidableEq, Repr

/-- Observable status of the `_videoPromise` field: `pending` while the
acquisition IIFE of `_getVideoElement` (lines 165-176) is still running,
`rejected e` once that IIFE threw `e`.  On success the field is reset to
`null` (= `none`) by the IIFE itself (line 175) in the same atomic segment
that installs the surface, so a resolved promise is never observable in
the field. -/
inductive VP where
  | pending
  | rejected (e : Err)
  deriving DecidableEq, Repr

/-- Program counter of the in-flight acquisition: at which `await` of
`_startVideo` (lines 237-293) / of the IIFE (line 166) it is suspended.
`awaitStream1` = suspended in the first `getUserMedia` (line 240);
`awaitStream2` = suspended in the constrained `getUserMedia` (line 278);
`awaitPlay s2` = suspended in `video.play()` (line 286), with stream `s2`
attached to the element; `awaitInstall s2` = `_startVideo` returned and the
IIFE is suspended at its `await` (line 166), about to install. -/
inductive AcqPC where
  | awaitStream1
  | awaitStream2
  | awaitPlay (s2 : Nat)
  | awaitInstall (s2 : Nat)
  deriving DecidableEq, Repr

/-- An in-flight acquisition: the generation value captured at entry of
`_startVideo` (`let video_nonce = this._video_nonce`, line 238) and its
suspension point. -/
structure Acq where
  n0 : Nat
  pc : AcqPC
  deriving DecidableEq, Repr

/-- A decode control (`IScannerControls`) as held in `this._controls`:
whether the optional `switchTorch` capability is present, and the hardware
torch state it drives. -/
structure Control where
  canTorch : Bool
  torchOn : Bool
  deriving DecidableEq, Repr

/-- `TorchStateResult` (`web.ts` line 159). -/
structure TorchStateResult where
  isEnabled : Bool
  deriving DecidableEq, Repr

/-- The mutable fields of the single `BarcodeScannerWeb` instance that the
claims are about (`web.ts` lines 28-36), plus the environment state they
own: the acquired media streams and the installed document surfaces.
`video = some s` means `_video` holds the element whose `srcObject` is
stream `s`. -/
structure St where
  nonce : Nat
  video : Option Nat
  vp : Option VP
  acq : Option Acq
  streams : List Bool
  doc : Nat
  controls : Option Control
  torchState : Bool
  deriving DecidableEq, Repr

/-- The fresh instance: `_video_nonce = 0`, `_video = null`,
`_videoPromise = null`, `_controls = null`, `_torchState = false`, no
stream acquired, no surface installed. -/
def init : St :=
  { nonce := 0, video := none, vp := none, acq := none,
    streams := [], doc := 0, controls := none, torchState := false }

/-- `stopStream` (`web.ts` 305-307): stop every track of the given stream. -/
def stopStreamFn (st : St) (s : Nat) : St :=
  { st with streams := st.streams.set s false }

/-- `_stop` (`web.ts` 295-302): if `_video` is set, run `stopVideo` on it
(pause, stop the tracks of its `srcObject`, remove its parent from the
document, lines 309-313), clear `_videoPromise` and `_video`; in every
case increment `_video_nonce` once. -/
def stopFn (st : St) : St :=
  let st1 : St :=
    match st.video with
    | some s =>
        { st with streams := st.streams.set s false, doc := st.doc - 1,
                  vp := none, video := none }
    | none => st
  { st1 with nonce := st1.nonce + 1 }

/-- `stopScan` (`web.ts` 91-97): `_stop()`, then stop and drop the decode
control when one is active. -/
def stopScanFn (st : St) : St :=
  let st1 := stopFn st
  match st1.controls with
  | some _ => { st1 with controls := none }
  | none => st1

/-- `pauseScanning` (`web.ts` 78-83): stop and drop the decode control when
one is active; the camera stream and surface are untouched. -/
def pauseScanningFn (st : St) : St :=
  match st.controls with
  | some _ => { st with controls := none }
  | none => st

/-- `enableTorch` (`web.ts` 145-150): only when a control with the
`switchTorch` capability is active, switch the hardware torch on and set
the cached `_torchState` flag. -/
def enableTorchFn (st : St) : St :=
  match st.controls with
  | some c =>
      if c.canTorch then
        { st with controls := some { c with torchOn := true }, torchState := true }
      else st
  | none => st

/-- `disableTorch` (`web.ts` 138-143): only when a control with the
`switchTorch` capability is active, switch the hardware torch off and
clear the cached `_torchState` flag. -/
def disableTorchFn (st : St) : St :=
  match st.controls with
  | some c =>
      if c.canTorch then
        { st with controls := some { c with torchOn := false }, torchState := false }
      else st
  | none => st

/-- `toggleTorch` (`web.ts` 152-156): only when a control with the
`switchTorch` capability is active, call `switchTorch(true)`; the cached
`_torchState` flag is not written. -/
def toggleTorchFn (st : St) : St :=
  match st.controls with
  | some c =>
      if c.canTorch then { st with controls := some { c with torchOn := true } }
      else st
  | none => st

/-- `getTorchState` (`web.ts` 158-160): report the cached flag. -/
def getTorchStateFn (st : St) : TorchStateResult :=
  { isEnabled := st.torchState }

/-- What the synchronous prelude of `_getVideoElement` (lines 162-177)
did for a caller: returned the existing `_video`, started awaiting the
existing `_videoPromise`, or created a fresh acquisition IIFE (and then
awaits the fresh promise). -/
inductive EntryRes where
  | retVideo
  | awaitExisting
  | spawned
  deriving DecidableEq, Repr

/-- Synchronous prelude of `_getVideoElement` (`web.ts` 162-177), the
common entry of `prepare`, `startScan` and `resumeScanning`: when `_video`
exists it is returned; otherwise, when `_videoPromise` exists the caller
awaits that same promise; otherwise the IIFE is created, which runs
synchronously into `_startVideo` up to the first `getUserMedia` await
(lines 238-240), capturing the current `_video_nonce`. -/
def getVideoElementEntry (st : St) : EntryRes × St :=
  match st.video with
  | some _ => (EntryRes.retVideo, st)
  | none =>
    match st.vp with
    | some _ => (EntryRes.awaitExisting, st)
    | none =>
        (EntryRes.spawned,
          { st with vp := some VP.pending,
                    acq := some { n0 := st.nonce, pc := AcqPC.awaitStream1 } })

/-- Error observable by a caller awaiting an already rejected
`_videoPromise`: `await this._videoPromise` (line 178) rethrows it. -/
def vpSettledError (st : St) : Option Err :=
  match st.vp with
  | some (VP.rejected e) => some e
  | _ => none

/-- Resumption after the first `getUserMedia` settles (`web.ts` 240-276):
the throwaway stream is allocated and its tracks stopped at once
(line 245); then the generation checkpoint (246-249) throws `ScanCanceled`
on mismatch; then the `getElementById` guard (line 251) throws when a
surface is already installed; otherwise the element is created and styled
(253-272) and the constrained `getUserMedia` is issued (line 278). -/
def acqResume1 (st : St) : St :=
  match st.acq with
  | some a =>
    match a.pc with
    | AcqPC.awaitStream1 =>
        let st1 : St := { st with streams := (st.streams ++ [true]).set st.streams.length false }
        if a.n0 ≠ st1.nonce then
          { st1 with vp := some (VP.rejected Err.scanCanceled), acq := none }
        else if st1.doc ≠ 0 then
          { st1 with vp := some (VP.rejected Err.cameraAlreadyStarted), acq := none }
        else
          { st1 with acq := some { a with pc := AcqPC.awaitStream2 } }
    | _ => st
  | none => st

/-- Resumption after the constrained `getUserMedia` settles
(`web.ts` 278-286): the new stream is allocated live; the generation
checkpoint (279-283) stops it and throws `ScanCanceled` on mismatch;
otherwise it is attached as `srcObject` (line 285) and `video.play()` is
issued (line 286). -/
def acqResume2 (st : St) : St :=
  match st.acq with
  | some a =>
    match a.pc with
    | AcqPC.awaitStream2 =>
        let s2 := st.streams.length
        let st1 : St := { st with streams := st.streams ++ [true] }
        if a.n0 ≠ st1.nonce then
          { st1 with streams := st1.streams.set s2 false,
                     vp := some (VP.rejected Err.scanCanceled), acq := none }
        else
          { st1 with acq := some { a with pc := AcqPC.awaitPlay s2 } }
    | _ => st
  | none => st

/-- Resumption after `video.play()` settles (`web.ts` 286-292).  When the
play promise rejects, the exception propagates out of `_startVideo` with
no surrounding try/finally: the attached stream is NOT stopped.  When it
resolves, the generation checkpoint (287-291) stops the stream and throws
`ScanCanceled` on mismatch; otherwise `_startVideo` returns the element,
which suspends the IIFE at its own `await` (line 166). -/
def acqResume3 (st : St) (playOk : Bool) : St :=
  match st.acq with
  | some a =>
    match a.pc with
    | AcqPC.awaitPlay s2 =>
        if playOk = false then
          { st with vp := some (VP.rejected Err.playError), acq := none }
        else if a.n0 ≠ st.nonce then
          { st with streams := st.streams.set s2 false,
                    vp := some (VP.rejected Err.scanCanceled), acq := none }
        else
          { st with acq := some { a with pc := AcqPC.awaitInstall s2 } }
    | _ => st
  | none => st

/-- Resumption of the IIFE after `_startVideo` returned (`web.ts`
167-175): build the wrapper `div`, append it to the document body, publish
the element in `_video` and clear `_videoPromise`.  There is no generation
check in this segment. -/
def acqResume4 (st : St) : St :=
  match st.acq with
  | some a =>
    match a.pc with
    | AcqPC.awaitInstall s2 =>
        { st with doc := st.doc + 1, video := some s2, vp := none, acq := none }
    | _ => st
  | none => st

/-- The atomic actions a schedule interleaves: a caller entering
`_getVideoElement` (from `prepare`, `startScan` or `resumeScanning`), the
four acquisition resumptions, the synchronous bodies of `stopScan` and
`pauseScanning`, the torch methods, the `finally` block of
`_getFirstResultFromReader` (lines 227-233) running when the decode
promise settles, and the engine handing the decode control to
`this._controls` (line 196). -/
inductive Act where
  | enter
  | acq1
  | acq2
  | acq3 (playOk : Bool)
  | acq4
  | stop
  | pause
  | enableT
  | disableT
  | toggleT
  | readerDone
  | setControls (c : Control)
  deriving DecidableEq, Repr

/-- The `finally` block of `_getFirstResultFromReader` (`web.ts` 227-233):
only when a control is active, stop it, drop it and run `_stop()`. -/
def finallyFn (st : St) : St :=
  match st.controls with
  | some _ => stopFn { st with controls := none }
  | none => st

/-- One atomic segment of the event loop. -/
def step : Act → St → St
  | Act.enter, st => (getVideoElementEntry st).2
  | Act.acq1, st => acqResume1 st
  | Act.acq2, st => acqResume2 st
  | Act.acq3 ok, st => acqResume3 st ok
  | Act.acq4, st => acqResume4 st
  | Act.stop, st => stopScanFn st
  | Act.pause, st => pauseScanningFn st
  | Act.enableT, st => enableTorchFn st
  | Act.disableT, st => disableTorchFn st
  | Act.toggleT, st => toggleTorchFn st
  | Act.readerDone, st => finallyFn st
  | Act.setControls c, st => { st with controls := some c }

/-- Run a schedule of atomic segments. -/
def run (acts : List Act) (st : St) : St :=
  acts.foldl (fun s a => step a s) st

/-! ## Decode-engine callback (`_getFirstResultFromReader`, `web.ts` 186-235) -/

/-- The error argument of a `decodeFromVideoElement` callback invocation:
one of the three exception classes tested at `web.ts` 198-202, or any
other (unrecoverable) engine error. -/
inductive EngineError where
  | notFoundException
  | checksumException
  | formatException
  | other (msg : String)
  deriving DecidableEq, Repr

/-- The three per-frame exception classes the callback silently ignores
(`web.ts` 198-205). -/
def EngineError.isRecoverable : EngineError → Bool
  | EngineError.notFoundException => true
  | EngineError.checksumException => true
  | EngineError.formatException => true
  | EngineError.other _ => false

/-- One invocation of the `(result, error)` callback (`web.ts` 196):
`onError e` is a call with a non-null error, `onResult text fmt` a call
with a non-null result whose `getText()` is `text` and whose
`getBarcodeFormat().toString()` is `fmt`, and `onNull` a call with
neither error nor result. -/
inductive CbEvent where
  | onError (e : EngineError)
  | onResult (text : String) (fmt : String)
  | onNull
  deriving DecidableEq, Repr

/-- Why the scan promise rejected. -/
inductive RejectReason where
  | engine (e : EngineError)
  | noResult
  | noText
  deriving DecidableEq, Repr

/-- How the scan promise settled. -/
inductive Settle where
  | resolve (r : ScanResult)
  | reject (e : RejectReason)
  deriving DecidableEq, Repr

/-- Effect of one callback invocation on the scan promise (`web.ts`
197-224): a recoverable error is logged and ignored; any other error
rejects; a null result rejects; a result whose text is empty (falsy)
rejects; otherwise the promise resolves with the scan record. -/
def callbackStep : CbEvent → Option Settle
  | CbEvent.onError e =>
      if e.isRecoverable then none else some (Settle.reject (RejectReason.engine e))
  | CbEvent.onNull => some (Settle.reject RejectReason.noResult)
  | CbEvent.onResult t fmt =>
      if t = "" then some (Settle.reject RejectReason.noText)
      else some (Settle.resolve { hasContent := true, content := t, format := fmt })

/-- The settlement of the scan promise over a sequence of callback
invocations: a promise settles at most once, so the first settling
invocation wins and later ones are ignored. -/
def firstSettle : List CbEvent → Option Settle
  | [] => none
  | e :: es =>
    match callbackStep e with
    | some s => some s
    | none => firstSettle es

/-- A callback invocation that is ignored: a recoverable per-frame error. -/
def isRecoverableEvent : CbEvent → Bool
  | CbEvent.onError e => e.isRecoverable
  | _ => false

/-! ## Target-format translation (`startScan`, `web.ts` 54-64) -/

/-- The decode engine's format names in enum-value order, as published by
the engine (the `BarcodeFormat` numeric enum of the zxing library imported
at `web.ts` line 2): the enum value of a name is its index in this list
(`QR_CODE = 11`). -/
def barcodeFormatNames : List String :=
  ["AZTEC", "CODABAR", "CODE_39", "CODE_93", "CODE_128", "DATA_MATRIX",
   "EAN_8", "EAN_13", "ITF", "MAXICODE", "PDF_417", "QR_CODE",
   "RSS_14", "RSS_EXPANDED", "UPC_A", "UPC_E", "UPC_EAN_EXTENSION"]

/-- `Object.keys(BarcodeFormat)` for a TypeScript numeric enum: the
numeric reverse-mapping keys first, then the member names.  This is the
array indexed at `web.ts` line 58. -/
def barcodeFormatObjectKeys : List String :=
  (List.range barcodeFormatNames.length).map (fun n => toString n) ++ barcodeFormatNames

/-- JavaScript `Array.prototype.indexOf`, with `none` for minus one. -/
def jsIndexOf : List String → String → Option Nat
  | [], _ => none
  | x :: xs, s => if x = s then some 0 else (jsIndexOf xs s).map (fun i => i + 1)

/-- The engine's enum value of a format name. -/
def barcodeFormatValue (name : String) : Option Nat :=
  jsIndexOf barcodeFormatNames name

/-- `web.ts` 56-64: `startScan` resets `_formats` and, for each targeted
format name whose index in `Object.keys(BarcodeFormat)` is non-negative,
pushes the literal constant `0`; a name not found there is logged with
`console.error` and skipped, without failing the call. -/
def computeFormats (targetedFormats : List String) : List Nat :=
  targetedFormats.foldl
    (fun acc f =>
      match jsIndexOf barcodeFormatObjectKeys f with
      | some _ => acc ++ [0]
      | none => acc)
    []

/-- `web.ts` 187-191: the hints map passed to `BrowserQRCodeReader` binds
`DecodeHintType.POSSIBLE_FORMATS` to `_formats` when `_formats` is
nonempty, and no hints are passed otherwise. -/
def possibleFormatsHint (formats : List Nat) : Option (List Nat) :=
  if formats.length ≠ 0 then some formats else none

/-! ## Invariants of the step semantics -/

/-- Structural invariant of the session state: the document holds exactly
one surface when `_video` is set and none otherwise; `_videoPromise` is
pending exactly while an acquisition is in flight; and an in-flight
acquisition was spawned with `_video` unset and with a captured generation
value no greater than the current one. -/
@[reducible] def Inv (st : St) : Prop :=
  st.doc = (if st.video.isSome then 1 else 0)
  ∧ (st.vp = some VP.pending ↔ st.acq.isSome = true)
  ∧ ∀ a : Acq, st.acq = some a → (st.video = none ∧ a.n0 ≤ st.nonce)

/-- A state in which the acquisition IIFE has rejected with `e` while
`_video` is unset.  Such a state is absorbing for the promise field: the
only statement that clears `_videoPromise` outside the IIFE success path
is in `_stop` (line 298), and it is guarded by `_video` being set
(line 296), which can never happen again because only the IIFE success
path sets `_video` and no new IIFE is created while `_videoPromise` is
non-null (line 164). -/
@[reducible] def Wedged (e : Err) (st : St) : Prop :=
  st.video = none ∧ st.acq = none ∧ st.vp = some (VP.rejected e)

theorem run_nil (st : St) : run [] st = st := rfl

theorem run_cons (a : Act) (acts : List Act) (st : St) :
    run (a :: acts) st = run acts (step a st) := rfl

theorem Inv_init : Inv init := by
  refine ⟨rfl, by simp [init], ?_⟩
  intro a ha
  simp [init] at ha

theorem Inv_enter (st : St) (h : Inv st) : Inv (getVideoElementEntry st).2 := by
  obtain ⟨h1, h2, h3⟩ := h
  unfold getVideoElementEntry
  split
  · exact ⟨h1, h2, h3⟩
  · next hv =>
    split
    · exact ⟨h1, h2, h3⟩
    · next hp =>
      refine ⟨by simpa [hv] using h1, by simp, ?_⟩
      intro b hb
      simp only [Option.some.injEq] at hb
      subst hb
      exact ⟨hv, Nat.le_refl _⟩

theorem Inv_acqResume1 (st : St) (h : Inv st) : Inv (acqResume1 st) := by
  obtain ⟨h1, h2, h3⟩ := h
  unfold acqResume1
  split
  · next a ha =>
    have hvid := (h3 a ha).1
    have hle := (h3 a ha).2
    split
    · dsimp only
      split_ifs with hn hd
      · exact ⟨h1, by simp, by intro b hb; simp at hb⟩
      · exact ⟨h1, by simp, by intro b hb; simp at hb⟩
      · refine ⟨h1, ?_, ?_⟩
        · exact ⟨fun _ => by simp, fun _ => h2.mpr (by simp [ha])⟩
        · intro b hb
          simp only [Option.some.injEq] at hb
          subst hb
          exact ⟨hvid, hle⟩
    · exact ⟨h1, h2, h3⟩
  · exact ⟨h1, h2, h3⟩

theorem Inv_acqResume2 (st : St) (h : Inv st) : Inv (acqResume2 st) := by
  obtain ⟨h1, h2, h3⟩ := h
  unfold acqResume2
  split
  · next a ha =>
    have hvid := (h3 a ha).1
    have hle := (h3 a ha).2
    split
    · dsimp only
      split_ifs with hn
      · exact ⟨h1, by simp, by intro b hb; simp at hb⟩
      · refine ⟨h1, ?_, ?_⟩
        · exact ⟨fun _ => by simp, fun _ => h2.mpr (by simp [ha])⟩
        · intro b hb
          simp only [Option.some.injEq] at hb
          subst hb
          exact ⟨hvid, hle⟩
    · exact ⟨h1, h2, h3⟩
  · exact ⟨h1, h2, h3⟩

theorem Inv_acqResume3 (st : St) (ok : Bool) (h : Inv st) : Inv (acqResume3 st ok) := by
  obtain ⟨h1, h2, h3⟩ := h
  unfold acqResume3
  split
  · next a ha =>
    have hvid := (h3 a ha).1
    have hle := (h3 a ha).2
    split
    · split_ifs with hok hn
      · exact ⟨h1, by simp, by intro b hb; simp at hb⟩
      · exact ⟨h1, by simp, by intro b hb; simp at hb⟩
      · refine ⟨h1, ?_, ?_⟩
        · exact ⟨fun _ => by simp, fun _ => h2.mpr (by simp [ha])⟩
        · intro b hb
          simp only [Option.some.injEq] at hb
          subst hb
          exact ⟨hvid, hle⟩
    · exact ⟨h1, h2, h3⟩
  · exact ⟨h1, h2, h3⟩

theorem Inv_acqResume4 (st : St) (h : Inv st) : Inv (acqResume4 st) := by
  obtain ⟨h1, h2, h3⟩ := h
  unfold acqResume4
  split
  · next a ha =>
    have hvid := (h3 a ha).1
    split
    · have hd : st.doc = 0 := by simpa [hvid] using h1
      exact ⟨by simp [hd], by simp, by intro b hb; simp at hb⟩
    · exact ⟨h1, h2, h3⟩
  · exact ⟨h1, h2, h3⟩

theorem Inv_stopFn (st : St) (h : Inv st) : Inv (stopFn st) := by
  obtain ⟨h1, h2, h3⟩ := h
  unfold stopFn
  split
  · next s hv =>
    have hacq : st.acq = none := by
      cases hq : st.acq with
      | none => rfl
      | some b => exact absurd (h3 b hq).1 (by simp [hv])
    have hd1 : st.doc = 1 := by simpa [hv] using h1
    exact ⟨by simp [hd1], by simp [hacq], by intro b hb; simp [hacq] at hb⟩
  · refine ⟨h1, h2, ?_⟩
    intro b hb
    exact ⟨(h3 b hb).1, Nat.le_succ_of_le (h3 b hb).2⟩

theorem Inv_stopScanFn (st : St) (h : Inv st) : Inv (stopScanFn st) := by
  have h0 := Inv_stopFn st h
  unfold stopScanFn
  dsimp only
  split
  · exact ⟨h0.1, h0.2.1, h0.2.2⟩
  · exact h0

theorem Inv_pause (st : St) (h : Inv st) : Inv (pauseScanningFn st) := by
  obtain ⟨h1, h2, h3⟩ := h
  unfold pauseScanningFn
  split
  · exact ⟨h1, h2, h3⟩
  · exact ⟨h1, h2, h3⟩

theorem Inv_finallyFn (st : St) (h : Inv st) : Inv (finallyFn st) := by
  obtain ⟨h1, h2, h3⟩ := h
  unfold finallyFn
  split
  · exact Inv_stopFn _ ⟨h1, h2, h3⟩
  · exact ⟨h1, h2, h3⟩

theorem Inv_enableTorch (st : St) (h : Inv st) : Inv (enableTorchFn st) := by
  obtain ⟨h1, h2, h3⟩ := h
  unfold enableTorchFn
  split
  · split_ifs <;> exact ⟨h1, h2, h3⟩
  · exact ⟨h1, h2, h3⟩

theorem Inv_disableTorch (st : St) (h : Inv st) : Inv (disableTorchFn st) := by
  obtain ⟨h1, h2, h3⟩ := h
  unfold disableTorchFn
  split
  · split_ifs <;> exact ⟨h1, h2, h3⟩
  · exact ⟨h1, h2, h3⟩

theorem Inv_toggleTorch (st : St) (h : Inv st) : Inv (toggleTorchFn st) := by
  obtain ⟨h1, h2, h3⟩ := h
  unfold toggleTorchFn
  split
  · split_ifs <;> exact ⟨h1, h2, h3⟩
  · exact ⟨h1, h2, h3⟩

theorem Inv_step (act : Act) (st : St) (h : Inv st) : Inv (step act st) := by
  cases act with
  | enter => exact Inv_enter st h
  | acq1 => exact Inv_acqResume1 st h
  | acq2 => exact Inv_acqResume2 st h
  | acq3 ok => exact Inv_acqResume3 st ok h
  | acq4 => exact Inv_acqResume4 st h
  | stop => exact Inv_stopScanFn st h
  | pause => exact Inv_pause st h
  | enableT => exact Inv_enableTorch st h
  | disableT => exact Inv_disableTorch st h
  | toggleT => exact Inv_toggleTorch st h
  | readerDone => exact Inv_finallyFn st h
  | setControls c => exact ⟨h.1, h.2.1, h.2.2⟩

theorem Inv_run (acts : List Act) (st : St) (h : Inv st) : Inv (run acts st) := by
  induction acts generalizing st with
  | nil => exact h
  | cons a as ih => exact ih (step a st) (Inv_step a st h)

theorem stopFn_nonce (st : St) : (stopFn st).nonce = st.nonce + 1 := by
  unfold stopFn
  dsimp only
  split
  · rfl
  · rfl

theorem stopFn_acq (st : St) : (stopFn st).acq = st.acq := by
  unfold stopFn
  dsimp only
  split
  · rfl
  · rfl

theorem stopFn_torchState (st : St) : (stopFn st).torchState = st.torchState := by
  unfold stopFn
  dsimp only
  split
  · rfl
  · rfl

theorem stopFn_controls (st : St) : (stopFn st).controls = st.controls := by
  unfold stopFn
  dsimp only
  split
  · rfl
  · rfl

theorem stopScanFn_nonce (st : St) : (stopScanFn st).nonce = st.nonce + 1 := by
  unfold stopScanFn
  dsimp only
  split
  · exact stopFn_nonce st
  · exact stopFn_nonce st

theorem stopScanFn_acq (st : St) : (stopScanFn st).acq = st.acq := by
  unfold stopScanFn
  dsimp only
  split
  · exact stopFn_acq st
  · exact stopFn_acq st

theorem stopScanFn_torchState (st : St) : (stopScanFn st).torchState = st.torchState := by
  unfold stopScanFn
  dsimp only
  split
  · exact stopFn_torchState st
  · exact stopFn_torchState st

theorem stopScanFn_controls (st : St) : (stopScanFn st).controls = none := by
  unfold stopScanFn
  dsimp only
  split
  · rfl
  · next hc => exact hc

theorem pauseScanningFn_torchState (st : St) : (pauseScanningFn st).torchState = st.torchState := by
  unfold pauseScanningFn
  split
  · rfl
  · rfl

theorem pauseScanningFn_controls (st : St) : (pauseScanningFn st).controls = none := by
  unfold pauseScanningFn
  split
  · rfl
  · next hc => exact hc

theorem enableTorch_on (st : St) (c : Control) (h : st.controls = some c)
    (hc : c.canTorch = true) :
    enableTorchFn st
      = { st with controls := some { c with torchOn := true }, torchState := true } := by
  unfold enableTorchFn
  simp only [h, hc, if_true]

theorem enableTorch_noop_of_none (st : St) (h : st.controls = none) :
    enableTorchFn st = st := by
  unfold enableTorchFn
  simp only [h]

theorem disableTorch_noop_of_none (st : St) (h : st.controls = none) :
    disableTorchFn st = st := by
  unfold disableTorchFn
  simp only [h]

theorem nonce_le_step (act : Act) (st : St) : st.nonce ≤ (step act st).nonce := by
  cases act with
  | enter =>
    simp only [step]
    unfold getVideoElementEntry
    split
    · exact Nat.le_refl _
    · split
      · exact Nat.le_refl _
      · exact Nat.le_refl _
  | acq1 =>
    simp only [step]
    unfold acqResume1
    split
    · split
      · dsimp only
        split_ifs <;> exact Nat.le_refl _
      · exact Nat.le_refl _
    · exact Nat.le_refl _
  | acq2 =>
    simp only [step]
    unfold acqResume2
    split
    · split
      · dsimp only
        split_ifs <;> exact Nat.le_refl _
      · exact Nat.le_refl _
    · exact Nat.le_refl _
  | acq3 ok =>
    simp only [step]
    unfold acqResume3
    split
    · split
      · split_ifs <;> exact Nat.le_refl _
      · exact Nat.le_refl _
    · exact Nat.le_refl _
  | acq4 =>
    simp only [step]
    unfold acqResume4
    split
    · split
      · exact Nat.le_refl _
      · exact Nat.le_refl _
    · exact Nat.le_refl _
  | stop =>
    have h1 : (step Act.stop st).nonce = st.nonce + 1 := stopScanFn_nonce st
    omega
  | pause =>
    simp only [step]
    unfold pauseScanningFn
    split
    · exact Nat.le_refl _
    · exact Nat.le_refl _
  | enableT =>
    simp only [step]
    unfold enableTorchFn
    split
    · split_ifs <;> exact Nat.le_refl _
    · exact Nat.le_refl _
  | disableT =>
    simp only [step]
    unfold disableTorchFn
    split
    · split_ifs <;> exact Nat.le_refl _
    · exact Nat.le_refl _
  | toggleT =>
    simp only [step]
    unfold toggleTorchFn
    split
    · split_ifs <;> exact Nat.le_refl _
    · exact Nat.le_refl _
  | readerDone =>
    simp only [step]
    unfold finallyFn
    split
    · have h1 := stopFn_nonce ({ st with controls := none })
      have h2 : ({ st with controls := none } : St).nonce = st.nonce := rfl
      omega
    · exact Nat.le_refl _
  | setControls c => exact Nat.le_refl _

theorem nonce_le_run (acts : List Act) (st : St) : st.nonce ≤ (run acts st).nonce := by
  induction acts generalizing st with
  | nil => exact Nat.le_refl _
  | cons a as ih => exact Nat.le_trans (nonce_le_step a st) (ih (step a st))

theorem Wedged_step (e : Err) (act : Act) (st : St) (h : Wedged e st) :
    Wedged e (step act st) := by
  obtain ⟨hv, ha, hp⟩ := h
  cases act with
  | enter =>
    simp only [step]
    unfold getVideoElementEntry
    simp only [hv, hp]
    exact ⟨hv, ha, hp⟩
  | acq1 =>
    simp only [step]
    unfold acqResume1
    simp only [ha]
    exact ⟨hv, ha, hp⟩
  | acq2 =>
    simp only [step]
    unfold acqResume2
    simp only [ha]
    exact ⟨hv, ha, hp⟩
  | acq3 ok =>
    simp only [step]
    unfold acqResume3
    simp only [ha]
    exact ⟨hv, ha, hp⟩
  | acq4 =>
    simp only [step]
    unfold acqResume4
    simp only [ha]
    exact ⟨hv, ha, hp⟩
  | stop =>
    simp only [step]
    unfold stopScanFn stopFn
    simp only [hv]
    split
    · exact ⟨rfl, ha, hp⟩
    · exact ⟨rfl, ha, hp⟩
  | pause =>
    simp only [step]
    unfold pauseScanningFn
    split
    · exact ⟨hv, ha, hp⟩
    · exact ⟨hv, ha, hp⟩
  | enableT =>
    simp only [step]
    unfold enableTorchFn
    split
    · split_ifs <;> exact ⟨hv, ha, hp⟩
    · exact ⟨hv, ha, hp⟩
  | disableT =>
    simp only [step]
    unfold disableTorchFn
    split
    · split_ifs <;> exact ⟨hv, ha, hp⟩
    · exact ⟨hv, ha, hp⟩
  | toggleT =>
    simp only [step]
    unfold toggleTorchFn
    split
    · split_ifs <;> exact ⟨hv, ha, hp⟩
    · exact ⟨hv, ha, hp⟩
  | readerDone =>
    simp only [step]
    unfold finallyFn
    split
    · unfold stopFn
      simp only [hv]
      exact ⟨rfl, ha, hp⟩
    · exact ⟨hv, ha, hp⟩
  | setControls c => exact ⟨hv, ha, hp⟩

theorem Wedged_run (e : Err) (acts : List Act) (st : St) (h : Wedged e st) :
    Wedged e (run acts st) := by
  induction acts generalizing st with
  | nil => exact h
  | cons a as ih => exact ih (step a st) (Wedged_step e a st h)

theorem entry_of_wedged (e : Err) (st : St) (h : Wedged e st) :
    getVideoElementEntry st = (EntryRes.awaitExisting, st) := by
  unfold getVideoElementEntry
  simp only [h.1, h.2.2]

theorem vpSettledError_of_wedged (e : Err) (st : St) (h : Wedged e st) :
    vpSettledError st = some e := by
  unfold vpSettledError
  simp only [h.2.2]

theorem firstSettle_filter (evs : List CbEvent) :
    firstSettle evs = firstSettle (evs.filter (fun e => !(isRecoverableEvent e))) := by
  induction evs with
  | nil => rfl
  | cons e es ih =>
    cases e with
    | onError err =>
      cases err <;>
        simp [firstSettle, callbackStep, isRecoverableEvent, EngineError.isRecoverable,
              List.filter_cons, ih]
    | onResult t f =>
      by_cases ht : t = "" <;>
        simp [firstSettle, callbackStep, isRecoverableEvent, List.filter_cons, ht]
    | onNull =>
      simp [firstSettle, callbackStep, isRecoverableEvent, List.filter_cons]

theorem firstSettle_shape (evs : List CbEvent) (s : Settle)
    (h : firstSettle evs = some s) :
    (∃ t f, t ≠ ""
        ∧ s = Settle.resolve { hasContent := true, content := t, format := f })
    ∨ s = Settle.reject RejectReason.noResult
    ∨ s = Settle.reject RejectReason.noText
    ∨ (∃ e, e.isRecoverable = false ∧ s = Settle.reject (RejectReason.engine e)) := by
  induction evs with
  | nil => simp [firstSettle] at h
  | cons e es ih =>
    cases e with
    | onError err =>
      cases herr : err.isRecoverable with
      | true =>
        rw [firstSettle] at h
        simp only [callbackStep, herr, if_true] at h
        exact ih h
      | false =>
        rw [firstSettle] at h
        simp only [callbackStep, herr, Bool.false_eq_true, if_false,
                   Option.some.injEq] at h
        exact Or.inr (Or.inr (Or.inr ⟨err, herr, h.symm⟩))
    | onResult t f =>
      by_cases ht : t = ""
      · rw [firstSettle] at h
        simp only [callbackStep, ht, if_true, Option.some.injEq] at h
        exact Or.inr (Or.inr (Or.inl h.symm))
      · rw [firstSettle] at h
        simp only [callbackStep, ht, if_false, Option.some.injEq] at h
        exact Or.inl ⟨t, f, ht, h.symm⟩
    | onNull =>
      rw [firstSettle] at h
      simp only [callbackStep, Option.some.injEq] at h
      exact Or.inr (Or.inl h.symm)

/-! ## The claims -/

/-- Claim C1.  First half (holds): in the run where `stopScan` lands while
the first `getUserMedia` of `startScan`'s acquisition is pending, the
acquisition rejects with `ScanCanceled` and leaks nothing (its only stream
is stopped, no surface is installed, `_video` stays unset).  Second half
(fails in the code): after any further schedule of operations the state
still has `_videoPromise` holding the same rejected promise and `_video`
unset, and a subsequent `startScan` entering `_getVideoElement` does not
start a new acquisition but awaits that rejected promise, so it rejects
with `ScanCanceled` instead of completing successfully: nothing ever
clears the rejected `_videoPromise`, because the IIFE resets it only on
success (line 175) and `_stop` resets it only when `_video` is set
(lines 296-299). -/
theorem stale_videoPromise_blocks_restart :
    (run [Act.enter, Act.stop, Act.acq1] init).streams = [false]
    ∧ (run [Act.enter, Act.stop, Act.acq1] init).doc = 0
    ∧ (run [Act.enter, Act.stop, Act.acq1] init).video = none
    ∧ vpSettledError (run [Act.enter, Act.stop, Act.acq1] init) = some Err.scanCanceled
    ∧ ∀ acts : List Act,
        getVideoElementEntry (run acts (run [Act.enter, Act.stop, Act.acq1] init))
            = (EntryRes.awaitExisting, run acts (run [Act.enter, Act.stop, Act.acq1] init))
        ∧ vpSettledError (run acts (run [Act.enter, Act.stop, Act.acq1] init))
            = some Err.scanCanceled
        ∧ (run acts (run [Act.enter, Act.stop, Act.acq1] init)).video = none := by
  refine ⟨rfl, rfl, rfl, rfl, ?_⟩
  intro acts
  have hw : Wedged Err.scanCanceled (run [Act.enter, Act.stop, Act.acq1] init) :=
    ⟨rfl, rfl, rfl⟩
  have hw2 := Wedged_run Err.scanCanceled acts _ hw
  exact ⟨entry_of_wedged _ _ hw2, vpSettledError_of_wedged _ _ hw2, hw2.1⟩

/-- Claim C2 (failing run).  The schedule: acquisition passes its three
generation checks (the post-play check included, `acq3 true`), `stopScan`
runs while the IIFE is suspended at its `await` (line 166), then the IIFE
resumes.  The stale generation-0 acquisition is still in flight when
`stopScan` increments the counter to 1, yet its resumption installs the
surface: the final state has the surface in the document (`doc = 1`),
`_video` set, and stream 1 (the constrained camera stream) still live
after `stopScan` has completed — the IIFE segment after the last
checkpoint performs no generation check. -/
theorem stale_acquisition_installs_after_stop :
    (run [Act.enter, Act.acq1, Act.acq2, Act.acq3 true] init).acq
        = some { n0 := 0, pc := AcqPC.awaitInstall 1 }
    ∧ (run [Act.enter, Act.acq1, Act.acq2, Act.acq3 true, Act.stop] init).nonce = 1
    ∧ (run [Act.enter, Act.acq1, Act.acq2, Act.acq3 true, Act.stop] init).acq
        = some { n0 := 0, pc := AcqPC.awaitInstall 1 }
    ∧ run [Act.enter, Act.acq1, Act.acq2, Act.acq3 true, Act.stop, Act.acq4] init
        = { nonce := 1, video := some 1, vp := none, acq := none,
            streams := [false, true], doc := 1, controls := none, torchState := false } :=
  ⟨rfl, rfl, rfl, rfl⟩

/-- Claim C3.  `stopScan` increments `_video_nonce` by exactly one and
leaves any in-flight acquisition in place with its captured generation now
strictly below the counter; every generation checkpoint reached with a
stale captured generation (the check after the first `getUserMedia`, the
one after the constrained `getUserMedia` — which also stops the new
stream — and the one after a successful `play()`) aborts the acquisition
by recording a `ScanCanceled` rejection instead of continuing; and the
counter never decreases across any schedule, so the mismatch persists. -/
theorem stopScan_increments_nonce_and_cancels :
    (∀ st : St, (stopScanFn st).nonce = st.nonce + 1)
    ∧ (∀ st : St, ∀ a : Acq, st.acq = some a → a.n0 ≤ st.nonce →
        (stopScanFn st).acq = some a ∧ a.n0 < (stopScanFn st).nonce)
    ∧ (∀ st : St, ∀ a : Acq, st.acq = some a → a.n0 ≠ st.nonce →
        (a.pc = AcqPC.awaitStream1 →
            (acqResume1 st).acq = none
            ∧ (acqResume1 st).vp = some (VP.rejected Err.scanCanceled))
        ∧ (a.pc = AcqPC.awaitStream2 →
            (acqResume2 st).acq = none
            ∧ (acqResume2 st).vp = some (VP.rejected Err.scanCanceled)
            ∧ (acqResume2 st).streams = (st.streams ++ [true]).set st.streams.length false)
        ∧ (∀ s2 : Nat, a.pc = AcqPC.awaitPlay s2 →
            (acqResume3 st true).acq = none
            ∧ (acqResume3 st true).vp = some (VP.rejected Err.scanCanceled)
            ∧ (acqResume3 st true).streams = st.streams.set s2 false))
    ∧ (∀ st : St, ∀ acts : List Act, st.nonce ≤ (run acts st).nonce) := by
  refine ⟨stopScanFn_nonce, ?_, ?_, fun st acts => nonce_le_run acts st⟩
  · intro st a ha hle
    refine ⟨(stopScanFn_acq st).trans ha, ?_⟩
    rw [stopScanFn_nonce]
    omega
  · intro st a ha hn
    refine ⟨?_, ?_, ?_⟩
    · intro hpc
      unfold acqResume1
      simp only [ha, hpc]
      constructor <;> simp [hn]
    · intro hpc
      unfold acqResume2
      simp only [ha, hpc]
      refine ⟨?_, ?_, ?_⟩ <;> simp [hn]
    · intro s2 hpc
      unfold acqResume3
      simp only [ha, hpc]
      refine ⟨?_, ?_, ?_⟩ <;> simp [hn]

theorem stopScan_increments_nonce_and_cancels_witness :
    (stopScanFn init).nonce = 1
    ∧ ((run [Act.enter] init).acq = some { n0 := 0, pc := AcqPC.awaitStream1 }
        ∧ (stopScanFn (run [Act.enter] init)).acq
            = some { n0 := 0, pc := AcqPC.awaitStream1 }
        ∧ 0 < (stopScanFn (run [Act.enter] init)).nonce)
    ∧ ((run [Act.enter, Act.stop] init).acq = some { n0 := 0, pc := AcqPC.awaitStream1 }
        ∧ (acqResume1 (run [Act.enter, Act.stop] init)).acq = none
        ∧ (acqResume1 (run [Act.enter, Act.stop] init)).vp
            = some (VP.rejected Err.scanCanceled)) := by
  have h := stopScan_increments_nonce_and_cancels
  have h2 := h.2.1 (run [Act.enter] init) { n0 := 0, pc := AcqPC.awaitStream1 }
      rfl (by decide)
  have h3 := (h.2.2.1 (run [Act.enter, Act.stop] init)
      { n0 := 0, pc := AcqPC.awaitStream1 } rfl (by decide)).1 rfl
  exact ⟨h.1 init, ⟨rfl, h2.1, h2.2⟩, ⟨rfl, h3.1, h3.2⟩⟩

/-- Claim C4 (failing run).  A plain `startScan` whose acquisition passes
both generation checks and then has `video.play()` reject (`acq3 false`,
for example Safari's `NotAllowedError`): the rejection propagates out of
`_startVideo` with no surrounding try/finally, so the constrained camera
stream (stream 1) is never stopped.  The final state shows the scan failed
(`_videoPromise` rejected, no surface installed, `_video` unset) while
stream 1 is still live: an orphaned camera stream on this exit path. -/
theorem play_failure_leaks_stream :
    run [Act.enter, Act.acq1, Act.acq2, Act.acq3 false] init
      = { nonce := 0, video := none, vp := some (VP.rejected Err.playError), acq := none,
          streams := [false, true], doc := 0, controls := none, torchState := false } :=
  rfl

/-- Claim C5.  In every reachable state the document contains at most one
video surface, and a caller entering `_getVideoElement` (from `prepare`,
`startScan` or `resumeScanning`) while `_videoPromise` is pending performs
no state change and awaits that same pending promise instead of starting a
second acquisition. -/
theorem at_most_one_video_surface (acts : List Act) :
    (run acts init).doc ≤ 1
    ∧ ((run acts init).vp = some VP.pending →
        getVideoElementEntry (run acts init)
          = (EntryRes.awaitExisting, run acts init)) := by
  have h := Inv_run acts init Inv_init
  constructor
  · rw [h.1]
    split <;> omega
  · intro hp
    have hacq : (run acts init).acq.isSome = true := h.2.1.mp hp
    cases hv : (run acts init).video with
    | some v =>
      obtain ⟨a, ha⟩ := Option.isSome_iff_exists.mp hacq
      exact absurd (h.2.2 a ha).1 (by simp [hv])
    | none =>
      unfold getVideoElementEntry
      simp only [hv, hp]

theorem at_most_one_video_surface_witness :
    (run [Act.enter] init).doc ≤ 1
    ∧ getVideoElementEntry (run [Act.enter] init)
        = (EntryRes.awaitExisting, run [Act.enter] init) :=
  ⟨(at_most_one_video_surface [Act.enter]).1,
   (at_most_one_video_surface [Act.enter]).2 rfl⟩

/-- Claim C6.  The settlement of the scan promise is unchanged when the
recoverable per-frame errors (`NotFoundException`, `ChecksumException`,
`FormatException`) are removed from the callback sequence — so a
recoverable error never resolves or rejects it — and whenever the promise
does settle, it settles either by resolving on a result with non-empty
text, or by rejecting on a callback with no result, on a result with empty
text, or on an unrecoverable engine error. -/
theorem recoverable_errors_never_settle :
    (∀ evs : List CbEvent,
        firstSettle evs = firstSettle (evs.filter (fun e => !(isRecoverableEvent e))))
    ∧ (∀ evs : List CbEvent, ∀ s : Settle, firstSettle evs = some s →
        (∃ t f, t ≠ ""
            ∧ s = Settle.resolve { hasContent := true, content := t, format := f })
        ∨ s = Settle.reject RejectReason.noResult
        ∨ s = Settle.reject RejectReason.noText
        ∨ (∃ e, e.isRecoverable = false ∧ s = Settle.reject (RejectReason.engine e))) :=
  ⟨firstSettle_filter, firstSettle_shape⟩

theorem recoverable_errors_never_settle_witness :
    (firstSettle
        [CbEvent.onError EngineError.notFoundException,
         CbEvent.onError EngineError.notFoundException,
         CbEvent.onResult "hello" "QR_CODE"]
      = firstSettle
        (List.filter (fun e => !(isRecoverableEvent e))
          [CbEvent.onError EngineError.notFoundException,
           CbEvent.onError EngineError.notFoundException,
           CbEvent.onResult "hello" "QR_CODE"]))
    ∧ ((∃ t f, t ≠ ""
          ∧ Settle.resolve { hasContent := true, content := "hello", format := "QR_CODE" }
            = Settle.resolve { hasContent := true, content := t, format := f })
        ∨ Settle.resolve { hasContent := true, content := "hello", format := "QR_CODE" }
            = Settle.reject RejectReason.noResult
        ∨ Settle.resolve { hasContent := true, content := "hello", format := "QR_CODE" }
            = Settle.reject RejectReason.noText
        ∨ (∃ e, EngineError.isRecoverable e = false
            ∧ Settle.resolve { hasContent := true, content := "hello", format := "QR_CODE" }
              = Settle.reject (RejectReason.engine e))) :=
  ⟨recoverable_errors_never_settle.1
      [CbEvent.onError EngineError.notFoundException,
       CbEvent.onError EngineError.notFoundException,
       CbEvent.onResult "hello" "QR_CODE"],
   recoverable_errors_never_settle.2
      [CbEvent.onError EngineError.notFoundException,
       CbEvent.onError EngineError.notFoundException,
       CbEvent.onResult "hello" "QR_CODE"]
      (Settle.resolve { hasContent := true, content := "hello", format := "QR_CODE" })
      (by decide)⟩

/-- Claim C7 (failing input).  For the recognized engine format name
`QR_CODE`, `startScan` pushes the literal constant `0` into `_formats`
(`web.ts` line 60; the computed `formatIndex` is never pushed), so the
`POSSIBLE_FORMATS` hint handed to the reader is `[0]` — the `AZTEC` enum
value — and not `[11]`, the `QR_CODE` enum value; an unrecognized name is
skipped without failing the call, and every recognized name contributes
the same constant `0`. -/
theorem targeted_formats_push_constant_zero :
    computeFormats ["QR_CODE"] = [0]
    ∧ barcodeFormatValue "QR_CODE" = some 11
    ∧ possibleFormatsHint (computeFormats ["QR_CODE"]) = some [0]
    ∧ possibleFormatsHint (computeFormats ["QR_CODE"]) ≠ some [11]
    ∧ computeFormats ["NOT_A_REAL_FORMAT"] = []
    ∧ computeFormats ["QR_CODE", "EAN_8"] = [0, 0] := by
  refine ⟨by decide, by decide, by decide, by decide, by decide, by decide⟩

/-- Claim C8.  When no decode control is active, `enableTorch` and
`disableTorch` are exact no-ops on the session state (the embedded
methods are total: the guarded bodies at `web.ts` 138-150 contain no
throw), and in particular the torch state reported by `getTorchState`
is unchanged. -/
theorem torch_noop_without_control (st : St) (h : st.controls = none) :
    enableTorchFn st = st
    ∧ disableTorchFn st = st
    ∧ getTorchStateFn (enableTorchFn st) = getTorchStateFn st
    ∧ getTorchStateFn (disableTorchFn st) = getTorchStateFn st := by
  have he := enableTorch_noop_of_none st h
  have hd := disableTorch_noop_of_none st h
  exact ⟨he, hd, by rw [he], by rw [hd]⟩

theorem torch_noop_without_control_witness :
    enableTorchFn init = init
    ∧ disableTorchFn init = init
    ∧ getTorchStateFn (enableTorchFn init) = getTorchStateFn init
    ∧ getTorchStateFn (disableTorchFn init) = getTorchStateFn init :=
  torch_noop_without_control init rfl

/-- Claim C9.  When a decode control with the `switchTorch` capability is
active, `toggleTorch` always calls `switchTorch(true)` — switching the
hardware torch on regardless of its current state, never off — and never
writes the cached `_torchState` flag, so the value reported by
`getTorchState` is unchanged. -/
theorem toggleTorch_forces_on_keeps_flag (st : St) (c : Control)
    (h : st.controls = some c) (hc : c.canTorch = true) :
    (toggleTorchFn st).controls = some { c with torchOn := true }
    ∧ (toggleTorchFn st).torchState = st.torchState
    ∧ getTorchStateFn (toggleTorchFn st) = getTorchStateFn st := by
  have ht : toggleTorchFn st = { st with controls := some { c with torchOn := true } } := by
    unfold toggleTorchFn
    rw [h]
    simp [hc]
  rw [ht]
  exact ⟨rfl, rfl, rfl⟩

theorem toggleTorch_forces_on_keeps_flag_witness :
    (toggleTorchFn { init with controls := some { canTorch := true, torchOn := false } }).controls
        = some { canTorch := true, torchOn := true }
    ∧ (toggleTorchFn { init with controls := some { canTorch := true, torchOn := false } }).torchState
        = ({ init with controls := some { canTorch := true, torchOn := false } } : St).torchState
    ∧ getTorchStateFn (toggleTorchFn { init with controls := some { canTorch := true, torchOn := false } })
        = getTorchStateFn { init with controls := some { canTorch := true, torchOn := false } } :=
  toggleTorch_forces_on_keeps_flag
    { init with controls := some { canTorch := true, torchOn := false } }
    { canTorch := true, torchOn := false } rfl rfl

/-- Claim C10.  Neither `stopScan` nor `pauseScanning` ever writes the
cached `_torchState` flag (first conjunct, over every state); after
`enableTorch` succeeds with an active torch-capable control, tearing the
control down with `stopScan` or `pauseScanning` leaves `getTorchState`
reporting `true` even though the control is gone, and a subsequent
`disableTorch` — now finding no active control — still leaves it `true`. -/
theorem teardown_preserves_torch_flag (st : St) (c : Control)
    (h : st.controls = some c) (hc : c.canTorch = true) :
    (∀ st2 : St, (stopScanFn st2).torchState = st2.torchState
        ∧ (pauseScanningFn st2).torchState = st2.torchState)
    ∧ (stopScanFn (enableTorchFn st)).controls = none
    ∧ (pauseScanningFn (enableTorchFn st)).controls = none
    ∧ (getTorchStateFn (stopScanFn (enableTorchFn st))).isEnabled = true
    ∧ (getTorchStateFn (pauseScanningFn (enableTorchFn st))).isEnabled = true
    ∧ (getTorchStateFn (disableTorchFn (stopScanFn (enableTorchFn st)))).isEnabled = true := by
  have hen := enableTorch_on st c h hc
  have hflag : (enableTorchFn st).torchState = true := by rw [hen]
  refine ⟨fun st2 => ⟨stopScanFn_torchState st2, pauseScanningFn_torchState st2⟩,
      stopScanFn_controls _, pauseScanningFn_controls _, ?_, ?_, ?_⟩
  · show (stopScanFn (enableTorchFn st)).torchState = true
    rw [stopScanFn_torchState, hflag]
  · show (pauseScanningFn (enableTorchFn st)).torchState = true
    rw [pauseScanningFn_torchState, hflag]
  · rw [disableTorch_noop_of_none _ (stopScanFn_controls _)]
    show (stopScanFn (enableTorchFn st)).torchState = true
    rw [stopScanFn_torchState, hflag]

theorem teardown_preserves_torch_flag_witness :
    ((stopScanFn { init with controls := some { canTorch := true, torchOn := false } }).torchState
        = ({ init with controls := some { canTorch := true, torchOn := false } } : St).torchState)
    ∧ (getTorchStateFn (stopScanFn (enableTorchFn
          { init with controls := some { canTorch := true, torchOn := false } }))).isEnabled = true
    ∧ (getTorchStateFn (pauseScanningFn (enableTorchFn
          { init with controls := some { canTorch := true, torchOn := false } }))).isEnabled = true
    ∧ (getTorchStateFn (disableTorchFn (stopScanFn (enableTorchFn
          { init with controls := some { canTorch := true, torchOn := false } })))).isEnabled = true := by
  have h := teardown_preserves_torch_flag
      { init with controls := some { canTorch := true, torchOn := false } }
      { canTorch := true, torchOn := false } rfl rfl
  exact ⟨(h.1 _).1, h.2.2.2.1, h.2.2.2.2.1, h.2.2.2.2.2⟩

end BarcodeScanner
